import Mathlib

/-!
Verification of the SIM7000 command-transport / TCP-over-command-channel
library (Go). The Go sources are shallowly embedded: pure parsing functions
become Lean functions over `String` / `List String`; functions that interact
with the serial channel become functions of an explicit reply oracle, and
return, alongside the Go results, an instrumentation trace (commands sent,
bytes flushed, ...). Byte strings are modelled as Lean `String`s
(`len` becomes `String.length`), Go `int` as `Int` where it can go negative,
and Go whitespace trimming (`strings.TrimSpace`) by trimming the common
ASCII whitespace characters. All string primitives are implemented here by
structural recursion over `String.data` so that every definition evaluates
by kernel reduction on concrete inputs.
-/

namespace SIM7000

/-! ## String primitives (embeddings of the Go `strings` functions used) -/

/-- Whitespace test backing the Go `strings.TrimSpace` embedding (the ASCII
whitespace characters). -/
def isGoSpace (c : Char) : Bool :=
  c = ' ' || c = '\t' || c = '\n' || c = '\r' || c = '\x0b' || c = '\x0c'

/-- Trim `isGoSpace` characters from both ends of a character list. -/
def trimChars (cs : List Char) : List Char :=
  ((cs.dropWhile isGoSpace).reverse.dropWhile isGoSpace).reverse

/-- Embedding of Go `strings.TrimSpace`. -/
def goTrim (s : String) : String :=
  ⟨trimChars s.data⟩

/-- Infix test on character lists backing `goContains`. -/
def containsChars (sub : List Char) : List Char → Bool
  | [] => sub.isEmpty
  | c :: rest => sub.isPrefixOf (c :: rest) || containsChars sub rest

/-- Embedding of Go `strings.Contains hay sub`: `sub` occurs inside `hay`. -/
def goContains (hay sub : String) : Bool :=
  containsChars sub.data hay.data

/-- Embedding of Go `strings.HasPrefix`. -/
def goHasPrefixOf (p s : String) : Bool :=
  p.data.isPrefixOf s.data

/-- Embedding of Go `strings.TrimPrefix s p`: drop `p` from the front of `s`
when it is there, otherwise return `s` unchanged. -/
def goStripLeading (s p : String) : String :=
  if goHasPrefixOf p s then ⟨s.data.drop p.data.length⟩ else s

/-- Embedding of Go `strings.Trim s "\x22"`: remove every leading and trailing
double-quote character. -/
def goTrimQuotes (s : String) : String :=
  ⟨((s.data.dropWhile (· = '"')).reverse.dropWhile (· = '"')).reverse⟩

/-- Splitter backing `goSplitComma` (Go `strings.Split` with a one-character
separator). -/
def splitCharAux (sep : Char) : List Char → List Char → List (List Char)
  | [], acc => [acc.reverse]
  | c :: rest, acc =>
    if c = sep then acc.reverse :: splitCharAux sep rest []
    else splitCharAux sep rest (c :: acc)

/-- Embedding of Go `strings.Split s ","`. -/
def goSplitComma (s : String) : List String :=
  (splitCharAux ',' s.data []).map String.mk

/-- Embedding of Go `bytes.Join` / `strings.Join` with a separator. -/
def goJoin (sep : String) : List String → String
  | [] => ""
  | [s] => s
  | s :: rest => s ++ sep ++ goJoin sep rest

/-- Digit run evaluation used by `goParseInt`: all characters must be decimal
digits and at least one must be present. -/
def digitsVal : List Char → Option Nat
  | [] => none
  | cs =>
    if cs.all Char.isDigit then
      some (cs.foldl (fun acc c => 10 * acc + (c.toNat - '0'.toNat)) 0)
    else
      none

/-- Embedding of Go `strconv.ParseInt(s, 10, 64)`: optional sign followed by
decimal digits. On failure the returned value is 0, as in Go. 64-bit range
saturation is not modelled (no input in this development approaches it). -/
def goParseInt (s : String) : Int × Bool :=
  match s.data with
  | '+' :: rest =>
    match digitsVal rest with
    | some n => ((n : Int), true)
    | none => (0, false)
  | '-' :: rest =>
    match digitsVal rest with
    | some n => (-(n : Int), true)
    | none => (0, false)
  | cs =>
    match digitsVal cs with
    | some n => ((n : Int), true)
    | none => (0, false)

example : goTrim "  a b  " = "a b" := by decide
example : goContains "hello PONG there" "PONG" = true := by decide
example : goContains "hello" "PONG" = false := by decide
example : goSplitComma "+CIPRXGET: 4,0" = ["+CIPRXGET: 4", "0"] := by decide
example : goParseInt "42" = (42, true) := by decide
example : goParseInt "-7" = (-7, true) := by decide
example : goParseInt "4x" = (0, false) := by decide
example : goStripLeading "STATE: IP START" "STATE:" = " IP START" := by decide

/-! ## Connection state model (module/status.go) -/

/-- Embedding of the Go `CIPStatus` enumeration (module/status.go). -/
inductive CIPStatus where
  | ipStatusUnknown
  | ipInitial
  | ipStart
  | ipConfig
  | ipGPRSAct
  | ipStatus
  | ipProcessing
  | ipConnectOK
  | ipClosing
  | ipClosed
  | ipPDPDeact
deriving DecidableEq, Repr

/-- The `switch state` table inside `ParseCIPSTATUSResp` (module/status.go,
lines 30-53), factored out: maps the trimmed text after `STATE:` to a
`CIPStatus`; any unlisted token is the `default` case, `IPStatusUnknown`. -/
def cipStateOfToken (s : String) : CIPStatus :=
  if s = "IP INITIAL" then .ipInitial
  else if s = "IP START" then .ipStart
  else if s = "IP CONFIG" then .ipConfig
  else if s = "IP GPRSACT" then .ipGPRSAct
  else if s = "IP STATUS" then .ipStatus
  else if s = "TCP CONNECTING" then .ipProcessing
  else if s = "UDP CONNECTING" then .ipProcessing
  else if s = "SERVER LISTENING" then .ipProcessing
  else if s = "IP PROCESSING" then .ipProcessing
  else if s = "CONNECT OK" then .ipConnectOK
  else if s = "TCP CLOSING" then .ipClosing
  else if s = "UDP CLOSING" then .ipClosing
  else if s = "TCP CLOSED" then .ipClosed
  else if s = "UDP CLOSED" then .ipClosed
  else if s = "PDP DEACT" then .ipPDPDeact
  else .ipStatusUnknown

/-- Embedding of `ParseCIPSTATUSResp` (module/status.go, lines 25-57): scan
the lines in order; the first line whose trimmed form starts with `STATE:`
decides the result via the switch table; if no line has the marker the
result is `IPStatusUnknown`. -/
def ParseCIPSTATUSResp : List String → CIPStatus
  | [] => .ipStatusUnknown
  | r :: rest =>
    let line := goTrim r
    if goHasPrefixOf "STATE:" line then
      cipStateOfToken (goTrim (goStripLeading line "STATE:"))
    else
      ParseCIPSTATUSResp rest

example : ParseCIPSTATUSResp ["OK", "STATE: IP START"] = .ipStart := by decide
example : ParseCIPSTATUSResp ["  STATE: TCP CLOSED  "] = .ipClosed := by decide
example : ParseCIPSTATUSResp ["STATE: BOGUS", "STATE: IP START"] = .ipStatusUnknown := by
  decide
example : ParseCIPSTATUSResp [] = .ipStatusUnknown := by decide

/-! ## Chat script interpreter (module/sim7000e.go)

The repository carries two `RunChatScript` implementations. The `[]byte`
variant (lines 653-692) accumulates the joined reply bytes and talks through
`SendATCommandReturnResponse`, whose `ReadATResponse` never returns an
error, so its `err != nil` branch is dead and each attempt simply consumes
the next device reply. The `[]string` variant (lines 384-439) talks through
`modem.Command`, which can fail; a failed command is retried like a
mismatch. Replies are supplied by an oracle indexed by the number of
commands sent so far.
-/

/-- Embedding of the Go `CommandResponse` struct (module/module.go). The
`Timeout` field only parametrises the serial wait and is carried opaquely.
`Retries` is a Go `int`. -/
structure CommandResponse where
  Command : String
  Response : String
  Timeout : Nat
  Retries : Int
deriving DecidableEq, Repr

/-- Embedding of the Go `ChatScript` struct (module/module.go). -/
structure ChatScript where
  Aborts : List String
  Commands : List CommandResponse
deriving DecidableEq, Repr

/-- The `containsAbortTerm` closure of the `[]byte` `RunChatScript`:
`strings.Contains(string(response), term)` over the script's abort terms. -/
def containsAbortTerm (aborts : List String) (resp : String) : Bool :=
  aborts.any (fun term => goContains resp term)

/-- The `containsAbortTerm` closure of the `[]string` `RunChatScript`: some
reply line contains some abort term. -/
def containsAbortTermLines (aborts : List String) (resp : List String) : Bool :=
  resp.any (fun line => aborts.any (fun term => goContains line term))

/-- Result of one step of a chat script: either control moves to the next
step, or `RunChatScript` returns with the given Go error string. -/
inductive StepOutcome where
  | next
  | halt (err : String)
deriving DecidableEq, Repr

/-- The Go error text `fmt.Errorf("Aborted with %s", resp)` of the `[]byte`
`RunChatScript`. -/
def abortedMsg (resp : String) : String :=
  "Aborted with " ++ resp

/-- The Go error text of the `[]byte` `RunChatScript` on retry exhaustion:
`Response "<resp>" did not contain expected "<want>"`. -/
def mismatchMsg (resp want : String) : String :=
  "Response \"" ++ resp ++ "\" did not contain expected \"" ++ want ++ "\""

/-- The Go error text of the `[]string` `RunChatScript` on retry exhaustion:
`Response to "<cmd>" did not contain expected "<want>"`. -/
def mismatchMsgStrings (cmd want : String) : String :=
  "Response to \"" ++ cmd ++ "\" did not contain expected \"" ++ want ++ "\""

/-- The `tryAtCommand` attempt loop for one step of the `[]byte`
`RunChatScript` (module/sim7000e.go lines 664-690). State: `k` counts
commands sent so far (indexing the reply oracle), `output` is the
accumulated reply bytes, `sent` the trace of commands written to the
channel. The Go loop variable `retriesLeft` (an `int`, decremented on a
mismatch and retried exactly while still positive: `retriesLeft--;
if retriesLeft > 0 goto tryAtCommand`) therefore retries exactly when the
value before the decrement is at least 2; it enters here through
`Int.toNat`, so that recursion is structural. -/
def runStepBytes (aborts : List String) (c : CommandResponse) (oracle : Nat → String) :
    Nat → Nat → String → List String → Nat × String × List String × StepOutcome
  | retriesLeft, k, output, sent =>
    let resp := oracle k
    let sent' := sent ++ [c.Command]
    let output' := output ++ resp
    if containsAbortTerm aborts resp then
      (k + 1, output', sent', .halt (abortedMsg resp))
    else if c.Response = "" then
      (k + 1, output', sent', .next)
    else if goContains resp c.Response then
      (k + 1, output', sent', .next)
    else
      match retriesLeft with
      | r + 2 => runStepBytes aborts c oracle (r + 1) (k + 1) output' sent'
      | _ => (k + 1, output', sent', .halt (mismatchMsg resp c.Response))

/-- The step sequencing of the `[]byte` `RunChatScript`: run the commands in
order, threading the oracle index, output and sent-trace; a `halt` outcome
returns immediately with the Go error. -/
def runCmdsBytes (aborts : List String) (oracle : Nat → String) :
    List CommandResponse → Nat → String → List String →
    String × List String × Option String
  | [], _, output, sent => (output, sent, none)
  | c :: rest, k, output, sent =>
    match runStepBytes aborts c oracle c.Retries.toNat k output sent with
    | (k', output', sent', .next) => runCmdsBytes aborts oracle rest k' output' sent'
    | (_, output', sent', .halt e) => (output', sent', some e)

/-- Embedding of the `[]byte` `RunChatScript` (module/sim7000e.go lines
653-692). Returns (accumulated output, commands sent, Go error). -/
def RunChatScriptBytes (script : ChatScript) (oracle : Nat → String) :
    String × List String × Option String :=
  runCmdsBytes script.Aborts oracle script.Commands 0 "" []

/-- The `tryAtCommand` attempt loop for one step of the `[]string`
`RunChatScript` (module/sim7000e.go lines 397-436). The oracle yields either
a `modem.Command` error or the reply lines; a command error is retried like
a mismatch and, once retries are exhausted, returned as the script error.
The Go `retriesLeft` int enters through `Int.toNat` as in `runStepBytes`;
the Go decrement-then-test (`retriesLeft--; if retriesLeft > 0`) retries
exactly when the counter was at least 2, which is the first pattern below
(the sole difference between the two patterns is retry versus halt in the
error and mismatch branches). -/
def runStepStrings (aborts : List String) (c : CommandResponse)
    (oracle : Nat → Except String (List String)) :
    Nat → Nat → List String → List String →
    Nat × List String × List String × StepOutcome
  | r + 2, k, output, sent =>
    let sent' := sent ++ [c.Command]
    match oracle k with
    | .error _ => runStepStrings aborts c oracle (r + 1) (k + 1) output sent'
    | .ok resp =>
      let output' := output ++ resp
      if containsAbortTermLines aborts resp then
        (k + 1, output', sent', .halt "Reply contained abort term")
      else if c.Response = "" then
        (k + 1, output', sent', .next)
      else if resp.any (fun line => goContains line c.Response) then
        (k + 1, output', sent', .next)
      else
        runStepStrings aborts c oracle (r + 1) (k + 1) output' sent'
  | _, k, output, sent =>
    let sent' := sent ++ [c.Command]
    match oracle k with
    | .error e => (k + 1, output, sent', .halt e)
    | .ok resp =>
      let output' := output ++ resp
      if containsAbortTermLines aborts resp then
        (k + 1, output', sent', .halt "Reply contained abort term")
      else if c.Response = "" then
        (k + 1, output', sent', .next)
      else if resp.any (fun line => goContains line c.Response) then
        (k + 1, output', sent', .next)
      else
        (k + 1, output', sent', .halt (mismatchMsgStrings c.Command c.Response))

/-- The step sequencing of the `[]string` `RunChatScript`. -/
def runCmdsStrings (aborts : List String) (oracle : Nat → Except String (List String)) :
    List CommandResponse → Nat → List String → List String →
    List String × List String × Option String
  | [], _, output, sent => (output, sent, none)
  | c :: rest, k, output, sent =>
    match runStepStrings aborts c oracle c.Retries.toNat k output sent with
    | (k', output', sent', .next) => runCmdsStrings aborts oracle rest k' output' sent'
    | (_, output', sent', .halt e) => (output', sent', some e)

/-- Embedding of the `[]string` `RunChatScript` (module/sim7000e.go lines
384-439). Returns (accumulated output lines, commands sent, Go error). -/
def RunChatScriptStrings (script : ChatScript)
    (oracle : Nat → Except String (List String)) :
    List String × List String × Option String :=
  runCmdsStrings script.Aborts oracle script.Commands 0 [] []

example :
    RunChatScriptBytes ⟨["ERROR"], [⟨"AT+CSQ", "+CSQ: ", 1, 0⟩]⟩
      (fun _ => "+CSQ: 20,0") = ("+CSQ: 20,0", ["AT+CSQ"], none) := by decide

example :
    RunChatScriptBytes ⟨["ERROR"], [⟨"PING", "PONG", 1, 0⟩, ⟨"NEXT", "OK", 1, 0⟩]⟩
      (fun _ => "GARBAGE") =
      ("GARBAGE", ["PING"], some (mismatchMsg "GARBAGE" "PONG")) := by decide

example :
    RunChatScriptBytes ⟨["ERROR"], [⟨"PING", "PONG", 1, 2⟩]⟩
      (fun k => if k = 0 then "junk" else "PONG") =
      ("junkPONG", ["PING", "PING"], none) := by decide

/-! ## Socket layer: Read (tcp/tcpconn.go) -/

/-- Go `error` values returned by the socket layer: `eof` is the `io.EOF`
sentinel (end of stream), `mk` an `errors.New` / `fmt.Errorf` value with its
message. -/
inductive GoError where
  | eof
  | mk (msg : String)
deriving DecidableEq, Repr

/-- Embedding of `parseBytesAvailableCIPRXGET` (tcp/tcpconn.go lines
225-243): find the first line containing `+CIPRXGET:`, split it on commas,
and parse the second field as the pending byte count; returns the count and
the Go error (the `ParseInt` error is propagated alongside the value, which
Go leaves at 0 on failure). -/
def parseBytesAvailableCIPRXGET : List String → Int × Option GoError
  | [] => (0, some (.mk "Unable to parse response"))
  | line :: rest =>
    if goContains line "+CIPRXGET:" then
      let parts := goSplitComma line
      if parts.length < 2 then
        (0, some (.mk ("Bad response: " ++ line)))
      else
        let cnflength := goTrim (parts.getD 1 "")
        let (v, ok) := goParseInt cnflength
        (v, if ok then none else some (.mk "ParseInt error"))
    else
      parseBytesAvailableCIPRXGET rest

/-- The scanning loop of `parseTCPDataCIPRXGET` (tcp/tcpconn.go lines
250-265), with the `isStarted` / `isEnded` flags explicit. Each iteration
first appends the current raw line plus `"\n"` to the buffer when
`isStarted && !isEnded`, then breaks if `isEnded`, then inspects the trimmed
line: `OK` sets `isEnded`, a line containing `+CIPRXGET` sets `isStarted`. -/
def parseTCPDataLoop : List String → String → Bool → Bool → String × Bool × Bool
  | [], buf, st, en => (buf, st, en)
  | r :: rest, buf, st, en =>
    if en then
      (buf, st, en)
    else
      let buf' := if st then buf ++ r ++ "\n" else buf
      let line := goTrim r
      if line = "OK" then
        parseTCPDataLoop rest buf' st true
      else if goContains line "+CIPRXGET" then
        parseTCPDataLoop rest buf' true en
      else
        parseTCPDataLoop rest buf' st en

/-- Embedding of `parseTCPDataCIPRXGET` (tcp/tcpconn.go lines 245-271).
In Go the payload is appended to the parameter slice `buf`, a value copy of
the caller's slice header, so the grown slice is local to the function; the
model therefore returns the final local buffer together with the Go error.
Missing start or terminal marker is the fetch error. -/
def parseTCPDataCIPRXGET (resp : List String) (buf : String) : String × Option GoError :=
  match parseTCPDataLoop resp buf false false with
  | (buf', st, en) =>
    if !st || !en then (buf', some (.mk "Incomplete response to CIPRXGET"))
    else (buf', none)

/-- Result of the modelled `TCPConn.Read`: the returned count `n`, the Go
error, and whether the `+CIPRXGET=2,1024` data-fetch command was sent. -/
structure ReadResult where
  n : Nat
  err : Option GoError
  fetchSent : Bool
deriving DecidableEq, Repr

/-- Embedding of `TCPConn.Read` (tcp/tcpconn.go lines 278-292). `resp1` is
the device reply to the `+CIPRXGET=4,1024` pending-count query, `resp2` the
reply to the `+CIPRXGET=2,1024` data fetch (consulted only when the count is
positive), `b` the caller's buffer. The Go method reads and mutates no
`TCPConn` field: its result is a pure function of the replies and of
`len(b)`, and the buffer grown inside `parseTCPDataCIPRXGET` is dropped. -/
def tcpConnRead (resp1 resp2 : List String) (b : String) : ReadResult :=
  match parseBytesAvailableCIPRXGET resp1 with
  | (_, some e) => ⟨0, some e, false⟩
  | (bytesAvail, none) =>
    if bytesAvail = 0 then
      ⟨0, some .eof, false⟩
    else
      match parseTCPDataCIPRXGET resp2 b with
      | (_, e) => ⟨b.length, e, true⟩

example :
    parseBytesAvailableCIPRXGET ["+CIPRXGET: 4,0"] = (0, none) := by decide
example :
    parseBytesAvailableCIPRXGET ["junk", "+CIPRXGET: 4,25"] = (25, none) := by decide
example :
    tcpConnRead ["+CIPRXGET: 4,0"] [] "0123456789" = ⟨0, some .eof, false⟩ := by decide
example :
    tcpConnRead ["+CIPRXGET: 4,5"] ["+CIPRXGET: 2,5,5", "hello", "OK"] "0123456789" =
      ⟨10, none, true⟩ := by decide
example :
    parseTCPDataCIPRXGET ["+CIPRXGET: 2,5,5", "hello", "OK"] "" =
      ("hello\nOK\n", none) := by decide

/-! ## Socket layer: Write (tcp/tcpconn.go) -/

/-- Embedding of `checkSendOK` (tcp/tcpconn.go lines 294-312): scan up to
`maxLines` further lines from the module; a trimmed `SEND OK` is success, a
trimmed `SEND FAIL` failure, other lines are skipped; running out of lines
(`scanner.Scan` returning false) or out of the line budget is failure. -/
def checkSendOK : List String → Nat → Bool
  | _, 0 => false
  | [], _ + 1 => false
  | l :: rest, m + 1 =>
    let s := goTrim l
    if s = "SEND OK" then true
    else if s = "SEND FAIL" then false
    else checkSendOK rest m

/-- Embedding of the `parseDataSize` closure inside `TCPConn.Write`
(tcp/tcpconn.go lines 320-337): on each line containing `+CIPSEND:` record
the parsed size (0 when `ParseInt` fails, as its error is discarded); on a
line equal to `OK` (untrimmed) return the recorded size; reaching the end
without `OK` returns the default 1460. -/
def parseDataSizeLoop : List String → Int → Int
  | [], _ => 1460
  | line :: rest, sz =>
    if goContains line "+CIPSEND:" then
      let t := goTrim (goStripLeading (goTrim line) "+CIPSEND:")
      parseDataSizeLoop rest (goParseInt t).1
    else if line = "OK" then
      sz
    else
      parseDataSizeLoop rest sz

/-- Entry point of the `parseDataSize` closure: the Go `sz` variable starts
at zero. -/
def parseDataSize (resp : List String) : Int :=
  parseDataSizeLoop resp 0

/-- One per-chunk interaction of `TCPConn.Write` with the device: whether
the `+CIPSEND=<n>` command got the `>` data prompt, what count the
underlying `m.Write` reports for a given chunk, and the lines scanned by
`checkSendOK` afterwards. -/
structure WriteEvent where
  ready : Bool
  write : String → Nat
  ackLines : List String

/-- Outcome of the multi-chunk loop of `TCPConn.Write`: loop exit with the
accumulated `tot_n`, early `return` with the Go return values, or fuel
exhaustion (the Go loop did not terminate within the modelled budget). -/
inductive WriteOutcome where
  | ok
  | fail (n : Nat) (msg : String)
  | outOfFuel
deriving DecidableEq, Repr

/-- Trace of the multi-chunk loop of `TCPConn.Write`: the sizes announced by
`+CIPSEND=<size>` commands, the chunk slices handed to `m.Write`, the sum of
the write counts (`tot_n`), and the outcome. -/
structure WriteTrace where
  announces : List Int
  chunks : List String
  totN : Nat
  outcome : WriteOutcome
deriving DecidableEq, Repr

/-- The multi-chunk loop of `TCPConn.Write` (tcp/tcpconn.go lines 347-370),
iterating over the remaining payload `rem` (`b[i:]`; the Go index `i`
advances by `chunkSize` per acknowledged chunk, so `b[i:end]` is
`(take chunkSize) of rem`). Per iteration: announce `+CIPSEND=chunkSize`;
if the prompt is not ready, `continue` retries the same chunk (consuming the
next oracle event); otherwise write the chunk, add its reported count to
`tot_n`, and run `checkSendOK` with a budget of 5 lines — on failure Go
executes `return n, errors.New("Sending failed")` where `n` is the *named
return value*, still 0 (the per-chunk count was bound by `:=` to a new
shadowing variable), which the trace records as `fail 0`. -/
def writeLoopGo (chunkSize : Nat) : (Nat → WriteEvent) → Nat → List Char → WriteTrace
  | _, 0, _ => ⟨[], [], 0, .outOfFuel⟩
  | oracle, fuel + 1, rem =>
    if rem = [] then
      ⟨[], [], 0, .ok⟩
    else
      let ev := oracle 0
      let rest := fun j => oracle (j + 1)
      if ev.ready then
        let chunk : String := ⟨rem.take chunkSize⟩
        let n := ev.write chunk
        if checkSendOK ev.ackLines 5 then
          let t := writeLoopGo chunkSize rest fuel (rem.drop chunkSize)
          ⟨(chunkSize : Int) :: t.announces, chunk :: t.chunks, n + t.totN, t.outcome⟩
        else
          ⟨[(chunkSize : Int)], [chunk], n, .fail 0 "Sending failed"⟩
      else
        let t := writeLoopGo chunkSize rest fuel rem
        ⟨(chunkSize : Int) :: t.announces, t.chunks, t.totN, t.outcome⟩

/-- Result of the modelled `TCPConn.Write`: the instrumentation trace plus
the Go return values `ret` and `err`; `divergent` marks fuel exhaustion of
the modelled loop (the Go code still looping). -/
structure WriteResult where
  announces : List Int
  chunks : List String
  flushed : Nat
  ret : Nat
  err : Option String
  divergent : Bool
deriving DecidableEq, Repr

/-- Embedding of `TCPConn.Write` (tcp/tcpconn.go lines 317-385). The chunk
size is parsed from the `+CIPSEND?` reply `cipsendResp`. A payload larger
than one chunk runs the multi-chunk loop (where the early `return` after a
failed `checkSendOK` yields the never-assigned named return `n = 0`);
otherwise a single `+CIPSEND=len(b)` round is done, whose failure path
returns the count reported by `m.Write`. A negative parsed chunk size would
make the Go slice expression panic; the model maps it through `Int.toNat`,
which no theorem below exercises. -/
def tcpConnWrite (b : String) (cipsendResp : List String) (oracle : Nat → WriteEvent)
    (fuel : Nat) : WriteResult :=
  let chunkSize := parseDataSize cipsendResp
  if (b.length : Int) > chunkSize then
    let t := writeLoopGo chunkSize.toNat oracle fuel b.data
    match t.outcome with
    | .ok => ⟨t.announces, t.chunks, t.totN, t.totN, none, false⟩
    | .fail n msg => ⟨t.announces, t.chunks, t.totN, n, some msg, false⟩
    | .outOfFuel => ⟨t.announces, t.chunks, t.totN, 0, none, true⟩
  else
    let ev := oracle 0
    if ev.ready then
      let n := ev.write b
      if checkSendOK ev.ackLines 5 then
        ⟨[(b.length : Int)], [b], n, n, none, false⟩
      else
        ⟨[(b.length : Int)], [b], n, n, some "Sending failed", false⟩
    else
      ⟨[(b.length : Int)], [], 0, 0, some "Module not ready to send", false⟩

/-- A device that always grants the data prompt, reports every chunk fully
written and acknowledges with `SEND OK`. -/
def okWriteOracle : Nat → WriteEvent :=
  fun _ => ⟨true, fun chunk => chunk.length, ["SEND OK"]⟩

/-- Ceiling division, the `ceil(N/C)` of the spec. -/
def ceilDiv (n c : Nat) : Nat :=
  (n + c - 1) / c

/-- Fuel-indexed splitting of a payload into consecutive chunks of at most
`c` bytes (the reference chunking of the spec); `chunksOf` instantiates the
fuel so that it never runs out for `1 ≤ c`. -/
def chunksOfAux (c : Nat) : Nat → List Char → List (List Char)
  | 0, _ => []
  | _, [] => []
  | fuel + 1, b => b.take c :: chunksOfAux c fuel (b.drop c)

/-- Consecutive chunks of at most `c` characters covering `b`. -/
def chunksOf (c : Nat) (b : String) : List String :=
  (chunksOfAux c b.data.length b.data).map String.mk

example : chunksOf 2 "abcde" = ["ab", "cd", "e"] := by decide
example :
    (tcpConnWrite "abcde" ["+CIPSEND: 2", "OK"] okWriteOracle 10).chunks =
      ["ab", "cd", "e"] := by decide
example :
    (tcpConnWrite "abcde" ["+CIPSEND: 2", "OK"] okWriteOracle 10).ret = 5 := by decide
example :
    (tcpConnWrite "abcde" ["+CIPSEND: 2", "OK"] okWriteOracle 10).announces =
      [2, 2, 2] := by decide
example : parseDataSize ["+CIPSEND: 1460", "OK"] = 1460 := by decide
example : parseDataSize ["nothing here"] = 1460 := by decide
example : checkSendOK ["blah", "SEND OK"] 5 = true := by decide
example : checkSendOK ["blah", "SEND FAIL"] 5 = false := by decide
example : checkSendOK ["a", "b", "c", "d", "e", "SEND OK"] 5 = false := by decide

/-! ## Socket layer: Connect (tcp/tcpconn.go, unnamed/part_005) -/

/-- Result of `parseDNSGIPResp` (the `[]string`, four-value variant used by
`dialTCP4`): a resolved address pair, a well-formed failure report
(`isGarbage = false`), or the structural-validation failure
`("", "", "No IP could be parsed from reply", isGarbage = true)`. -/
inductive DNSLookup where
  | ok (ip1 ip2 : String)
  | err (msg : String)
  | garbage
deriving DecidableEq, Repr

/-- Embedding of `parseDNSGIPResp` (unnamed/part_005 lines 9-42): scan for a
trimmed line starting with `+CDNSGIP:`, split the remainder on commas; a
leading `0` field selects among the defined DNS error messages, a leading
`1` field yields the quoted addresses when the line has 3 or 4 fields; any
line that fits no case is skipped, and falling off the end is the garbage
outcome. -/
def parseDNSGIPResp : List String → DNSLookup
  | [] => .garbage
  | r :: rest =>
    let line := goTrim r
    if goHasPrefixOf "+CDNSGIP:" line then
      let l2 := goStripLeading line "+CDNSGIP:"
      let parts := goSplitComma l2
      if parts.length < 2 then
        parseDNSGIPResp rest
      else if goTrim (parts.getD 0 "") = "0" then
        if goTrim (parts.getD 1 "") = "8" then .err "Module says: DNS COMMON ERROR"
        else if goTrim (parts.getD 1 "") = "3" then .err "Module says: NETWORK ERROR"
        else .err "Module reply could not be parsed"
      else if goTrim (parts.getD 0 "") = "1" then
        if parts.length = 3 then
          .ok (goTrimQuotes (goTrim (parts.getD 2 ""))) ""
        else if parts.length = 4 then
          .ok (goTrimQuotes (goTrim (parts.getD 2 ""))) (goTrimQuotes (goTrim (parts.getD 3 "")))
        else
          parseDNSGIPResp rest
      else
        parseDNSGIPResp rest
    else
      parseDNSGIPResp rest

/-- Outcome of the name-resolution loop in `dialTCP4`: a resolved address,
a surfaced resolution error, or `looping` — the modelled fuel ran out with
the Go `for` loop still resending (the loop itself has no exit for that
case). `sends` counts `+CDNSGIP` commands issued. -/
inductive ResolveOutcome where
  | resolved (ip : String) (sends : Nat)
  | failed (msg : String) (sends : Nat)
  | looping
deriving DecidableEq, Repr

/-- Embedding of the name-resolution `for` loop of `dialTCP4`
(tcp/tcpconn.go lines 144-156): send `+CDNSGIP="<domain>"`, parse the reply;
`isGarbage` makes the loop `continue` with a fresh send of the same command,
a well-formed error is returned immediately, and a resolved address exits
the loop. `oracle k` is the reply to the `k`-th send. -/
def resolveLoop (oracle : Nat → List String) : Nat → Nat → ResolveOutcome
  | 0, _ => .looping
  | fuel + 1, k =>
    match parseDNSGIPResp (oracle k) with
    | .garbage => resolveLoop oracle fuel (k + 1)
    | .err m => .failed m (k + 1)
    | .ok ip1 _ => .resolved ip1 (k + 1)

/-- Embedding of the `cipstartOK` closure of `dialTCP4` (tcp/tcpconn.go
lines 164-177): first component is `ok`, second `isGarbage`. -/
def cipstartOK : List String → Bool × Bool
  | [] => (false, true)
  | line :: rest =>
    if goContains line "CONNECT OK" then (true, false)
    else if goContains line "ALREADY CONNECT" then (true, false)
    else if goContains line "CONNECT FAIL" then (false, false)
    else cipstartOK rest

/-- Embedding of the `+CIPSTART` `for` loop of `dialTCP4` (tcp/tcpconn.go
lines 179-187): garbage replies resend the same connect command, an explicit
failure token returns the fatal connect error, a success token exits. -/
def connectLoop (oracle : Nat → List String) : Nat → Nat → ResolveOutcome
  | 0, _ => .looping
  | fuel + 1, k =>
    match cipstartOK (oracle k) with
    | (_, true) => connectLoop oracle fuel (k + 1)
    | (false, false) => .failed "Unable to start tcp connection" (k + 1)
    | (true, false) => .resolved "" (k + 1)

example :
    parseDNSGIPResp ["OK", "+CDNSGIP: 1,\"example.com\",\"93.184.216.34\""] =
      .ok "93.184.216.34" "" := by decide
example : parseDNSGIPResp ["+CDNSGIP: 0,8"] = .err "Module says: DNS COMMON ERROR" := by
  decide
example : parseDNSGIPResp ["ERROR"] = .garbage := by decide
example : resolveLoop (fun _ => ["ERROR"]) 7 0 = .looping := by decide

/-! ## Reply framer (module/sim7000e.go ReadATResponse) -/

/-- One `reader.ReadLine()` return in the framer loop: the elapsed time (in
model units, measured from the start of `ReadATResponse`) at which the call
returns, and the line it produced (`none` when it returned an error). -/
structure ReadEvent where
  arrival : Nat
  line : Option String
deriving DecidableEq, Repr

/-- The accumulation loop of `ReadATResponse` (module/sim7000e.go lines
635-649): at the top of each iteration, stop once the elapsed time exceeds
`timeout`; otherwise block on the next `ReadLine` event, skip it on error,
append its line otherwise, and continue with the clock advanced to that
event's arrival. Exhausting the modelled event list ends the loop. -/
def readATLoop (timeout : Nat) : List ReadEvent → Nat → List String → List String
  | [], _, acc => acc
  | e :: rest, elapsed, acc =>
    if elapsed > timeout then acc
    else
      match e.line with
      | some l => readATLoop timeout rest e.arrival (acc ++ [l])
      | none => readATLoop timeout rest e.arrival acc

/-- The events the framer loop actually consumes: the longest prefix of the
event list each of whose events is awaited from a loop iteration that began
with elapsed time at most `timeout`. -/
def framerWindow (timeout : Nat) : List ReadEvent → Nat → List ReadEvent
  | [], _ => []
  | e :: rest, elapsed =>
    if elapsed > timeout then []
    else e :: framerWindow timeout rest e.arrival

/-- Embedding of `ReadATResponse` in its `make([][]byte, 0)` form
(module/sim7000e.go lines 623-651): the joined accumulated lines, paired
with the Go error, which is the literal `nil` of the source. -/
def ReadATResponseV0 (timeout : Nat) (events : List ReadEvent) : String × Option GoError :=
  (goJoin "\n" (readATLoop timeout events 0 []), none)

/-- Embedding of `ReadATResponse` in its `make([][]byte, 1)` form
(module/sim7000e.go lines 232-260): the slice starts with one empty element,
so the join acquires a leading separator once any line is read. -/
def ReadATResponseV1 (timeout : Nat) (events : List ReadEvent) : String × Option GoError :=
  (goJoin "\n" ("" :: readATLoop timeout events 0 []), none)

example :
    ReadATResponseV0 10 [⟨1, some "first"⟩, ⟨3, some "OK"⟩] = ("first\nOK", none) := by
  decide
example :
    ReadATResponseV0 2 [⟨1, some "a"⟩, ⟨3, some "late"⟩, ⟨4, some "later"⟩] =
      ("a\nlate", none) := by decide
example : ReadATResponseV0 5 [] = ("", none) := by decide
example : ReadATResponseV1 10 [⟨1, some "OK"⟩] = ("\nOK", none) := by decide

/-! ## Module constructor (module/sim7000e.go NewSIM7000) -/

/-- Embedding of the bring-up decision of `NewSIM7000` (module/sim7000e.go
lines 494-532 and 305-325): query the connection state, and when it already
reports `IPStatus` or `IPClosed` return the module as ready without running
the bring-up chat script (the `switch state` early return); for every other
state run the script, the module being ready exactly when the script
succeeds. Returns (module ready, bring-up commands sent). -/
def NewSIM7000 (script : ChatScript) (statusResp : List String) (oracle : Nat → String) :
    Bool × List String :=
  match ParseCIPSTATUSResp statusResp with
  | .ipStatus => (true, [])
  | .ipClosed => (true, [])
  | _ =>
    match RunChatScriptBytes script oracle with
    | (_, sent, err) => (err.isNone, sent)

example :
    NewSIM7000 ⟨["ERROR"], [⟨"AT", "OK", 1, 0⟩]⟩ ["STATE: IP STATUS"] (fun _ => "OK") =
      (true, []) := by decide
example :
    NewSIM7000 ⟨["ERROR"], [⟨"AT", "OK", 1, 0⟩]⟩ ["STATE: IP INITIAL"] (fun _ => "OK") =
      (true, ["AT"]) := by decide

/-- Concatenation of `n` consecutive oracle replies starting at index `k`
(the output accumulated by `n` attempts of one chat-script step). -/
def replConcat (oracle : Nat → String) (k : Nat) : Nat → String
  | 0 => ""
  | n + 1 => oracle k ++ replConcat oracle (k + 1) n

/-- Concatenation of `n` consecutive line-list replies starting at index `k`
(the output accumulated by `n` attempts of one step of the `[]string`
interpreter). -/
def replConcatLines (resps : Nat → List String) (k : Nat) : Nat → List String
  | 0 => []
  | n + 1 => resps k ++ replConcatLines resps (k + 1) n

/-- The per-chunk device behaviour of the C4 failing input: the first chunk
is granted, fully written and acknowledged; the second chunk is granted and
fully written but the device answers `SEND FAIL`. -/
def failSecondChunkOracle : Nat → WriteEvent :=
  fun k =>
    if k = 0 then ⟨true, fun chunk => chunk.length, ["SEND OK"]⟩
    else ⟨true, fun chunk => chunk.length, ["SEND FAIL"]⟩

/-! ## Helper lemmas -/

theorem strAppend_empty (s : String) : s ++ "" = s := by
  cases s with
  | mk l => show String.mk (l ++ []) = String.mk l; rw [List.append_nil]

theorem strAppend_assoc (a b c : String) : a ++ b ++ c = a ++ (b ++ c) := by
  cases a with
  | mk x =>
    cases b with
    | mk y =>
      cases c with
      | mk z =>
        show String.mk (x ++ y ++ z) = String.mk (x ++ (y ++ z))
        rw [List.append_assoc]

theorem containsChars_append_left (sub a : List Char) :
    ∀ b, containsChars sub b = true → containsChars sub (a ++ b) = true := by
  induction a with
  | nil => intro b h; simpa using h
  | cons c rest ih =>
    intro b h
    show containsChars sub (c :: (rest ++ b)) = true
    rw [containsChars]
    simp only [Bool.or_eq_true]
    exact Or.inr (ih b h)

/-- Containment is preserved when text is prepended (used for the abort
error message carrying the triggering reply). -/
theorem goContains_append_right (a b term : String) :
    goContains b term = true → goContains (a ++ b) term = true := by
  intro h
  cases a with
  | mk x =>
    cases b with
    | mk y =>
      show containsChars term.data (x ++ y) = true
      exact containsChars_append_left term.data x y h

/-- One-attempt unfolding of `runStepBytes`, valid for every value of the
retry counter. -/
theorem runStepBytes_unfold (aborts : List String) (c : CommandResponse)
    (oracle : Nat → String) (rl k : Nat) (output : String) (sent : List String) :
    runStepBytes aborts c oracle rl k output sent =
      (let resp := oracle k
       let sent' := sent ++ [c.Command]
       let output' := output ++ resp
       if containsAbortTerm aborts resp then
         (k + 1, output', sent', .halt (abortedMsg resp))
       else if c.Response = "" then
         (k + 1, output', sent', .next)
       else if goContains resp c.Response then
         (k + 1, output', sent', .next)
       else
         match rl with
         | r + 2 => runStepBytes aborts c oracle (r + 1) (k + 1) output' sent'
         | _ => (k + 1, output', sent', .halt (mismatchMsg resp c.Response))) := by
  cases rl with
  | zero => rfl
  | succ n =>
    cases n with
    | zero => rfl
    | succ m => rfl

/-- An abort-containing reply halts one step of the `[]byte` interpreter
with the `Aborted with` error, for every value of the retry counter. -/
theorem runStepBytes_abort (aborts : List String) (c : CommandResponse)
    (oracle : Nat → String) (rl k : Nat) (output : String) (sent : List String)
    (h : containsAbortTerm aborts (oracle k) = true) :
    runStepBytes aborts c oracle rl k output sent =
      (k + 1, output ++ oracle k, sent ++ [c.Command], .halt (abortedMsg (oracle k))) := by
  rw [runStepBytes_unfold]
  simp [h]

/-- An abort-containing reply halts one step of the `[]string` interpreter
at the fixed error text, for every value of the retry counter. -/
theorem runStepStrings_abort (aborts : List String) (c : CommandResponse)
    (oracle : Nat → Except String (List String)) (rl k : Nat)
    (output sent resp : List String) (hok : oracle k = .ok resp)
    (habort : containsAbortTermLines aborts resp = true) :
    runStepStrings aborts c oracle rl k output sent =
      (k + 1, output ++ resp, sent ++ [c.Command],
        .halt "Reply contained abort term") := by
  rcases rl with _ | rl1
  · simp only [runStepStrings, hok]
    simp [habort]
  · rcases rl1 with _ | r
    · simp only [runStepStrings, hok]
      simp [habort]
    · simp only [runStepStrings, hok]
      simp [habort]

/-! ## C7: totality and first-match behaviour of the connection-state parser -/

/-- The sixteen raw tokens recognized by the `switch` of
`ParseCIPSTATUSResp`. -/
def recognizedStateTokens : List String :=
  ["IP INITIAL", "IP START", "IP CONFIG", "IP GPRSACT", "IP STATUS",
   "TCP CONNECTING", "UDP CONNECTING", "SERVER LISTENING", "IP PROCESSING",
   "CONNECT OK", "TCP CLOSING", "UDP CLOSING", "TCP CLOSED", "UDP CLOSED",
   "PDP DEACT"]

/-- C7: `ParseCIPSTATUSResp` is total — on every line list, empty input
included, it yields a value of the closed `CIPStatus` enumeration (part 1);
the first line carrying the `STATE:` marker decides the result, whatever
lines follow (part 2); a `STATE:` line whose token is not in the recognized
table yields `IPStatusUnknown` (part 3); and input without the marker
anywhere, the empty input included, yields `IPStatusUnknown` (part 4). -/
theorem C7_parseState_total :
    (∀ resp : List String,
      ParseCIPSTATUSResp resp = .ipStatusUnknown ∨
      ParseCIPSTATUSResp resp = .ipInitial ∨
      ParseCIPSTATUSResp resp = .ipStart ∨
      ParseCIPSTATUSResp resp = .ipConfig ∨
      ParseCIPSTATUSResp resp = .ipGPRSAct ∨
      ParseCIPSTATUSResp resp = .ipStatus ∨
      ParseCIPSTATUSResp resp = .ipProcessing ∨
      ParseCIPSTATUSResp resp = .ipConnectOK ∨
      ParseCIPSTATUSResp resp = .ipClosing ∨
      ParseCIPSTATUSResp resp = .ipClosed ∨
      ParseCIPSTATUSResp resp = .ipPDPDeact) ∧
    (∀ (pre : List String) (l : String) (rest : List String),
      (∀ p ∈ pre, goHasPrefixOf "STATE:" (goTrim p) = false) →
      goHasPrefixOf "STATE:" (goTrim l) = true →
      ParseCIPSTATUSResp (pre ++ l :: rest) =
        cipStateOfToken (goTrim (goStripLeading (goTrim l) "STATE:"))) ∧
    (∀ tok : String, tok ∉ recognizedStateTokens →
      cipStateOfToken tok = .ipStatusUnknown) ∧
    (∀ resp : List String,
      (∀ p ∈ resp, goHasPrefixOf "STATE:" (goTrim p) = false) →
      ParseCIPSTATUSResp resp = .ipStatusUnknown) := by
  refine ⟨?_, ?_, ?_, ?_⟩
  · intro resp
    cases h : ParseCIPSTATUSResp resp <;> simp
  · intro pre l rest hpre hl
    induction pre with
    | nil => simp [ParseCIPSTATUSResp, hl]
    | cons p ps ih =>
      have hp : goHasPrefixOf "STATE:" (goTrim p) = false := hpre p (by simp)
      have hps : ∀ q ∈ ps, goHasPrefixOf "STATE:" (goTrim q) = false :=
        fun q hq => hpre q (by simp [hq])
      simpa [ParseCIPSTATUSResp, hp] using ih hps
  · intro tok htok
    simp only [recognizedStateTokens, List.mem_cons, List.not_mem_nil, or_false,
      not_or] at htok
    obtain ⟨h1, h2, h3, h4, h5, h6, h7, h8, h9, h10, h11, h12, h13, h14, h15⟩ := htok
    simp [cipStateOfToken, h1, h2, h3, h4, h5, h6, h7, h8, h9, h10, h11, h12, h13,
      h14, h15]
  · intro resp hresp
    induction resp with
    | nil => rfl
    | cons p ps ih =>
      have hp : goHasPrefixOf "STATE:" (goTrim p) = false := hresp p (by simp)
      have hps : ∀ q ∈ ps, goHasPrefixOf "STATE:" (goTrim q) = false :=
        fun q hq => hresp q (by simp [hq])
      simpa [ParseCIPSTATUSResp, hp] using ih hps

/-- Witness for C7 at concrete inputs: a `STATE:` line after a non-marker
line wins and maps through the table, an unrecognized token gives
`IPStatusUnknown`, and marker-free input gives `IPStatusUnknown`. -/
theorem C7_witness :
    ParseCIPSTATUSResp ["AT+CIPSTATUS", "STATE: IP CONFIG"] = .ipConfig ∧
    cipStateOfToken "WEIRD TOKEN" = .ipStatusUnknown ∧
    ParseCIPSTATUSResp ["OK", "nothing"] = .ipStatusUnknown := by
  have h := C7_parseState_total
  refine ⟨?_, ?_, ?_⟩
  · have h2 := h.2.1 ["AT+CIPSTATUS"] "STATE: IP CONFIG" [] (by decide) (by decide)
    simp only [List.cons_append, List.nil_append] at h2
    rw [h2]; decide
  · exact h.2.2.1 "WEIRD TOKEN" (by decide)
  · exact h.2.2.2 ["OK", "nothing"] (by decide)

/-! ## C8: bring-up is skipped exactly on the Status / Closed states -/

/-- C8: in the constructor, a connection-state reply parsing to `IPStatus`
or `IPClosed` makes `NewSIM7000` return a ready module with no bring-up
command sent (the chat script is skipped entirely); any other parsed state
runs the bring-up chat script, the module being ready exactly when the
script returns no error. -/
theorem C8_bringup_skipped_iff_status_or_closed (script : ChatScript)
    (statusResp : List String) (oracle : Nat → String) :
    (ParseCIPSTATUSResp statusResp = .ipStatus ∨
        ParseCIPSTATUSResp statusResp = .ipClosed →
      NewSIM7000 script statusResp oracle = (true, [])) ∧
    (ParseCIPSTATUSResp statusResp ≠ .ipStatus →
      ParseCIPSTATUSResp statusResp ≠ .ipClosed →
      NewSIM7000 script statusResp oracle =
        ((RunChatScriptBytes script oracle).2.2.isNone,
          (RunChatScriptBytes script oracle).2.1)) := by
  constructor
  · intro h
    rcases h with h | h <;> simp [NewSIM7000, h]
  · intro h1 h2
    rcases hr : RunChatScriptBytes script oracle with ⟨out, sent, err⟩
    cases hs : ParseCIPSTATUSResp statusResp <;>
      simp_all [NewSIM7000, hr]

/-- Witness for C8: a `STATE: TCP CLOSED` reply skips the bring-up script
(no command sent, module ready), while `STATE: IP INITIAL` runs it. -/
theorem C8_witness :
    NewSIM7000 ⟨["ERROR"], [⟨"AT+CSQ", "+CSQ: ", 1, 0⟩]⟩ ["STATE: TCP CLOSED"]
        (fun _ => "+CSQ: 3,0") = (true, []) ∧
    NewSIM7000 ⟨["ERROR"], [⟨"AT+CSQ", "+CSQ: ", 1, 0⟩]⟩ ["STATE: IP INITIAL"]
        (fun _ => "+CSQ: 3,0") = (true, ["AT+CSQ"]) := by
  constructor
  · exact (C8_bringup_skipped_iff_status_or_closed _ _ _).1 (by decide)
  · have h := (C8_bringup_skipped_iff_status_or_closed
      ⟨["ERROR"], [⟨"AT+CSQ", "+CSQ: ", 1, 0⟩]⟩ ["STATE: IP INITIAL"]
      (fun _ => "+CSQ: 3,0")).2 (by decide) (by decide)
    rw [h]; decide

/-! ## C1: a zero pending-byte count is reported as io.EOF -/

/-- Counterexample to C1: with the device reporting zero pending bytes
(`+CIPRXGET: 4,0`), `TCPConn.Read` returns the `io.EOF` sentinel — the Go
end-of-stream marker — not a distinct transient "no data currently
available" outcome as the claim states. -/
theorem C1_counterexample :
    (tcpConnRead ["+CIPRXGET: 4,0"] [] "0123456789").err = some GoError.eof := by
  decide

/-- C1 as amended: whenever the pending-count reply parses to a count of 0
with no error, `TCPConn.Read` returns `(0, io.EOF)`, and does not issue the
data-fetch command. No session state exists to be mutated: the Go method
touches no `TCPConn` field, which the model reflects by `tcpConnRead` being
a pure function of the two replies and the buffer, so repeated zero-count
reads behave identically. -/
theorem C1_zero_pending_reports_eof (resp1 resp2 : List String) (b : String)
    (h : parseBytesAvailableCIPRXGET resp1 = (0, none)) :
    tcpConnRead resp1 resp2 b = ⟨0, some .eof, false⟩ := by
  simp [tcpConnRead, h]

/-- Witness for C1 at the concrete zero-count reply. -/
theorem C1_witness :
    parseBytesAvailableCIPRXGET ["+CIPRXGET: 4,0"] = (0, none) ∧
    tcpConnRead ["+CIPRXGET: 4,0"] ["anything"] "buffer" = ⟨0, some .eof, false⟩ :=
  ⟨by decide, C1_zero_pending_reports_eof ["+CIPRXGET: 4,0"] ["anything"] "buffer"
    (by decide)⟩

/-! ## C10: Read returns the caller's buffer length, payload stays local -/

/-- The fetch-parse loop appends only to the right of the buffer it is
given: running it on `b ++ s` yields `b ++` (its result on `s`), with the
same flags. -/
theorem parseTCPDataLoop_append (resp : List String) :
    ∀ (b s : String) (st en : Bool),
      parseTCPDataLoop resp (b ++ s) st en =
        (b ++ (parseTCPDataLoop resp s st en).1, (parseTCPDataLoop resp s st en).2) := by
  induction resp with
  | nil => intro b s st en; simp [parseTCPDataLoop]
  | cons r rest ih =>
    intro b s st en
    by_cases hen : en = true
    · simp [parseTCPDataLoop, hen]
    · simp only [Bool.not_eq_true] at hen
      subst hen
      by_cases hst : st = true
      · have hassoc : b ++ s ++ r ++ "\n" = b ++ (s ++ r ++ "\n") := by
          rw [strAppend_assoc, strAppend_assoc, strAppend_assoc]
        by_cases hok : goTrim r = "OK"
        · simp [parseTCPDataLoop, hst, hok, hassoc, ih]
        · by_cases hcip : goContains (goTrim r) "+CIPRXGET" = true
          · simp [parseTCPDataLoop, hst, hok, hcip, hassoc, ih]
          · simp only [Bool.not_eq_true] at hcip
            simp [parseTCPDataLoop, hst, hok, hcip, hassoc, ih]
      · simp only [Bool.not_eq_true] at hst
        subst hst
        by_cases hok : goTrim r = "OK"
        · simp [parseTCPDataLoop, hok, ih]
        · by_cases hcip : goContains (goTrim r) "+CIPRXGET" = true
          · simp [parseTCPDataLoop, hok, hcip, ih]
          · simp only [Bool.not_eq_true] at hcip
            simp [parseTCPDataLoop, hok, hcip, ih]

/-- C10: whenever `TCPConn.Read` returns without error, its count equals the
length of the caller-supplied buffer, regardless of how much payload the
fetch reply carried; and the buffer grown by `parseTCPDataCIPRXGET` is the
given buffer with the extracted payload appended — a value local to the
parse (Go passes the slice header by value), which `tcpConnRead` discards,
so the payload is not part of what Read hands back. -/
theorem C10_read_returns_buffer_length (resp1 resp2 : List String) (b : String)
    (h : (tcpConnRead resp1 resp2 b).err = none) :
    (tcpConnRead resp1 resp2 b).n = b.length ∧
    (parseTCPDataCIPRXGET resp2 b).1 = b ++ (parseTCPDataCIPRXGET resp2 "").1 := by
  constructor
  · rcases h1 : parseBytesAvailableCIPRXGET resp1 with ⟨v, e⟩
    cases e with
    | some err => simp [tcpConnRead, h1] at h
    | none =>
      by_cases hv : v = 0
      · subst hv; simp [tcpConnRead, h1] at h
      · simp [tcpConnRead, h1, hv]
  · have hb : b ++ "" = b := strAppend_empty b
    have := parseTCPDataLoop_append resp2 b "" false false
    rw [hb] at this
    simp only [parseTCPDataCIPRXGET, this]
    rcases parseTCPDataLoop resp2 "" false false with ⟨buf, st, en⟩
    by_cases hmiss : (!st || !en) = true <;> simp [hmiss]

/-- Witness for C10: a read with ten bytes of buffer and a five-byte payload
reply reports ten bytes read, and the payload ends up only in the local
grown buffer. -/
theorem C10_witness :
    (tcpConnRead ["+CIPRXGET: 4,5"] ["+CIPRXGET: 2,5,5", "hello", "OK"]
        "0123456789").n = 10 ∧
    (parseTCPDataCIPRXGET ["+CIPRXGET: 2,5,5", "hello", "OK"] "0123456789").1 =
      "0123456789" ++ "hello\nOK\n" := by
  have h := C10_read_returns_buffer_length ["+CIPRXGET: 4,5"]
    ["+CIPRXGET: 2,5,5", "hello", "OK"] "0123456789" (by decide)
  refine ⟨h.1, ?_⟩
  rw [h.2]; decide

/-! ## C9: the reply framer returns the accumulation, without error -/

/-- The framer loop returns its accumulator extended with exactly the lines
of the events inside the timeout window. -/
theorem readATLoop_window (timeout : Nat) (events : List ReadEvent) :
    ∀ (elapsed : Nat) (acc : List String),
      readATLoop timeout events elapsed acc =
        acc ++ (framerWindow timeout events elapsed).filterMap (·.line) := by
  induction events with
  | nil => intro elapsed acc; simp [readATLoop, framerWindow]
  | cons e rest ih =>
    intro elapsed acc
    by_cases hto : elapsed > timeout
    · simp [readATLoop, framerWindow, hto]
    · cases hl : e.line with
      | some l => simp [readATLoop, framerWindow, hto, hl, ih]
      | none => simp [readATLoop, framerWindow, hto, hl, ih]

/-- Counterexample to C9: the `make([][]byte, 1)` variant of
`ReadATResponse` (module/sim7000e.go lines 232-260) seeds the reply slice
with one empty element, so its return value is not the accumulated reply
block: for a single accumulated line `OK` it returns `"\nOK"`. -/
theorem C9_counterexample :
    (ReadATResponseV1 10 [⟨1, some "OK"⟩]).1 ≠
      goJoin "\n" (readATLoop 10 [⟨1, some "OK"⟩] 0 []) := by
  decide

/-- C9 as amended: for every timeout and event history, both
`ReadATResponse` variants return a `nil` Go error — an empty or malformed
accumulation is an ordinary return value — and consume no event outside the
timeout window (each iteration re-checks the elapsed time before blocking
again, so reading stops at the first iteration that starts past `timeout`).
The lines-623-651 variant returns exactly the joined accumulated lines; the
lines-232-260 variant returns the same accumulation behind one spurious
leading separator from its pre-seeded empty element. -/
theorem C9_framer_returns_accumulation (timeout : Nat) (events : List ReadEvent) :
    (ReadATResponseV0 timeout events).2 = none ∧
    (ReadATResponseV1 timeout events).2 = none ∧
    (ReadATResponseV0 timeout events).1 =
      goJoin "\n" ((framerWindow timeout events 0).filterMap (·.line)) ∧
    (ReadATResponseV1 timeout events).1 =
      goJoin "\n" ("" :: (framerWindow timeout events 0).filterMap (·.line)) := by
  refine ⟨rfl, rfl, ?_, ?_⟩
  · simp [ReadATResponseV0, readATLoop_window]
  · simp [ReadATResponseV1, readATLoop_window]

/-! ## C3: garbage replies are resent without any bound -/

/-- Counterexample to C3: on a channel that persistently returns
structurally invalid replies, fifty resends of the resolution command (and
likewise of the connect command) leave `dialTCP4` still looping — no resend
budget is ever exhausted and no fatal connect error is produced, contrary to
the claimed bounded resend. -/
theorem C3_counterexample :
    resolveLoop (fun _ => ["ERROR"]) 50 0 = .looping ∧
    connectLoop (fun _ => ["mystery line"]) 50 0 = .looping := by
  constructor <;> decide

/-- C3 as amended: a reply failing structural validation triggers a resend
of the same command with no upper bound — under persistently garbage
replies the resolution loop and the connect loop of `dialTCP4` never
terminate, for any number of iterations, and exhaustion never surfaces an
error; by contrast a well-formed reply reporting a genuine resolution
failure (or the explicit `CONNECT FAIL` token) is surfaced immediately,
after exactly one send. -/
theorem C3_garbage_resend_unbounded :
    (∀ (oracle : Nat → List String) (fuel k : Nat),
      (∀ j, parseDNSGIPResp (oracle j) = .garbage) →
      resolveLoop oracle fuel k = .looping) ∧
    (∀ (oracle : Nat → List String) (fuel k : Nat) (m : String),
      parseDNSGIPResp (oracle k) = .err m →
      resolveLoop oracle (fuel + 1) k = .failed m (k + 1)) ∧
    (∀ (oracle : Nat → List String) (fuel k : Nat),
      (∀ j, (cipstartOK (oracle j)).2 = true) →
      connectLoop oracle fuel k = .looping) ∧
    (∀ (oracle : Nat → List String) (fuel k : Nat),
      cipstartOK (oracle k) = (false, false) →
      connectLoop oracle (fuel + 1) k = .failed "Unable to start tcp connection"
        (k + 1)) := by
  refine ⟨?_, ?_, ?_, ?_⟩
  · intro oracle fuel
    induction fuel with
    | zero => intro k _; rfl
    | succ f ih =>
      intro k h
      rw [resolveLoop, h k]
      exact ih (k + 1) h
  · intro oracle fuel k m h
    simp [resolveLoop, h]
  · intro oracle fuel
    induction fuel with
    | zero => intro k _; rfl
    | succ f ih =>
      intro k h
      rcases hk : cipstartOK (oracle k) with ⟨ok, g⟩
      have hg : g = true := by have := h k; rw [hk] at this; exact this
      subst hg
      rw [connectLoop, hk]
      cases ok <;> simpa using ih (k + 1) h
  · intro oracle fuel k h
    simp [connectLoop, h]

/-- Witness for C3 at concrete replies: a well-formed DNS error reply is
surfaced after a single send, an all-garbage channel keeps the loop running
past any concrete budget, and `CONNECT FAIL` fails the connect loop after a
single send. -/
theorem C3_witness :
    resolveLoop (fun _ => ["+CDNSGIP: 0,8"]) 8 0 =
      .failed "Module says: DNS COMMON ERROR" 1 ∧
    resolveLoop (fun _ => ["ERROR"]) 9 0 = .looping ∧
    connectLoop (fun _ => ["junk", "CONNECT FAIL"]) 8 0 =
      .failed "Unable to start tcp connection" 1 := by
  refine ⟨?_, ?_, ?_⟩
  · exact C3_garbage_resend_unbounded.2.1 (fun _ => ["+CDNSGIP: 0,8"]) 7 0
      "Module says: DNS COMMON ERROR" (by decide)
  · have hg : ∀ j : Nat, parseDNSGIPResp ["ERROR"] = DNSLookup.garbage :=
      fun _ => by decide
    exact C3_garbage_resend_unbounded.1 (fun _ => ["ERROR"]) 9 0 hg
  · exact C3_garbage_resend_unbounded.2.2.2 (fun _ => ["junk", "CONNECT FAIL"]) 7 0
      (by decide)

/-! ## C2: an abort substring halts the script at that step -/

/-- Counterexample to C2: in the `[]string` `RunChatScript` (lines 384-439),
the abort error is the fixed text `Reply contained abort term`, which does
not carry the triggering text — here the abort substring `XYZZY` does not
occur in the returned error. -/
theorem C2_counterexample :
    RunChatScriptStrings ⟨["XYZZY"], [⟨"AT", "OK", 1, 0⟩, ⟨"NEXT", "OK", 1, 0⟩]⟩
        (fun _ => .ok ["XYZZY problem"]) =
      (["XYZZY problem"], ["AT"], some "Reply contained abort term") ∧
    goContains "Reply contained abort term" "XYZZY" = false := by
  constructor <;> decide

/-- C2 as amended: whenever execution reaches a step whose reply contains an
abort substring, the script halts at that step — whatever the step's
expected substring is, so the abort check takes priority over success
matching, and no command of any later step is sent (the sent-trace gains
only this step's command). The `[]byte` variant returns the error
`Aborted with <reply>`, which carries the triggering text (clause 2); the
`[]string` variant returns the fixed error `Reply contained abort term`
(clause 3). -/
theorem C2_abort_halts_at_step :
    (∀ (aborts : List String) (oracle : Nat → String) (c : CommandResponse)
        (post : List CommandResponse) (k : Nat) (out : String) (sent : List String),
      containsAbortTerm aborts (oracle k) = true →
      runCmdsBytes aborts oracle (c :: post) k out sent =
        (out ++ oracle k, sent ++ [c.Command], some (abortedMsg (oracle k)))) ∧
    (∀ resp term : String, goContains resp term = true →
      goContains (abortedMsg resp) term = true) ∧
    (∀ (aborts : List String) (oracle : Nat → Except String (List String))
        (c : CommandResponse) (post : List CommandResponse) (k : Nat)
        (out sent : List String) (resp : List String),
      oracle k = .ok resp →
      containsAbortTermLines aborts resp = true →
      runCmdsStrings aborts oracle (c :: post) k out sent =
        (out ++ resp, sent ++ [c.Command], some "Reply contained abort term")) := by
  refine ⟨?_, ?_, ?_⟩
  · intro aborts oracle c post k out sent h
    simp only [runCmdsBytes]
    rw [runStepBytes_abort aborts c oracle c.Retries.toNat k out sent h]
  · intro resp term h
    exact goContains_append_right "Aborted with " resp term h
  · intro aborts oracle c post k out sent resp hok habort
    simp only [runCmdsStrings]
    rw [runStepStrings_abort aborts c oracle c.Retries.toNat k out sent resp hok habort]

/-- Witness for C2: a step whose reply contains the abort term `ERROR` —
and even the step's expected substring — halts a two-step script at step
one; the later command is never sent and the `[]byte` error carries the
reply. -/
theorem C2_witness :
    runCmdsBytes ["ERROR"] (fun _ => "OK ERROR") [⟨"AT", "OK", 1, 2⟩, ⟨"NEXT", "OK", 1, 0⟩]
        0 "" [] = ("OK ERROR", ["AT"], some (abortedMsg "OK ERROR")) ∧
    goContains (abortedMsg "OK ERROR") "ERROR" = true := by
  constructor
  · exact C2_abort_halts_at_step.1 ["ERROR"] (fun _ => "OK ERROR") ⟨"AT", "OK", 1, 2⟩
      [⟨"NEXT", "OK", 1, 0⟩] 0 "" [] (by decide)
  · exact C2_abort_halts_at_step.2.1 "OK ERROR" "ERROR" (by decide)

/-! ## C6: retry on mismatch, fatal error on exhaustion -/

/-- Counterexample to C6: scenario B — script `[("PING","PONG",1s,0)]`,
reply `GARBAGE` — fails immediately after a single attempt in both
`RunChatScript` variants, but in neither does the fatal error name both the
step and the actual reply: the `[]byte` variant's error
`Response "GARBAGE" did not contain expected "PONG"` does not name the step
(neither the command `PING` nor an index appears in it), and the `[]string`
variant's error `Response to "PING" did not contain expected "PONG"` names
the step's command but omits the actual reply `GARBAGE`. -/
theorem C6_counterexample :
    (RunChatScriptBytes ⟨[], [⟨"PING", "PONG", 1, 0⟩]⟩ (fun _ => "GARBAGE") =
      ("GARBAGE", ["PING"], some (mismatchMsg "GARBAGE" "PONG")) ∧
     goContains (mismatchMsg "GARBAGE" "PONG") "PING" = false) ∧
    (RunChatScriptStrings ⟨[], [⟨"PING", "PONG", 1, 0⟩]⟩ (fun _ => .ok ["GARBAGE"]) =
      (["GARBAGE"], ["PING"], some (mismatchMsgStrings "PING" "PONG")) ∧
     goContains (mismatchMsgStrings "PING" "PONG") "GARBAGE" = false) := by
  refine ⟨⟨?_, ?_⟩, ?_, ?_⟩ <;> decide

/-- The attempt loop under a never-matching, never-aborting reply stream:
with the Go retry counter at `rl`, the step is attempted exactly
`max 1 rl` times, each attempt consuming one reply and resending the same
command, and the step halts with the mismatch error built from the last
reply and the expected substring. -/
theorem runStepBytes_exhaust (aborts : List String) (c : CommandResponse)
    (oracle : Nat → String) (hne : c.Response ≠ "") :
    ∀ (rl k : Nat) (out : String) (sent : List String),
      (∀ j < max 1 rl,
        containsAbortTerm aborts (oracle (k + j)) = false ∧
        goContains (oracle (k + j)) c.Response = false) →
      runStepBytes aborts c oracle rl k out sent =
        (k + max 1 rl,
         out ++ replConcat oracle k (max 1 rl),
         sent ++ List.replicate (max 1 rl) c.Command,
         .halt (mismatchMsg (oracle (k + (max 1 rl - 1))) c.Response)) := by
  intro rl
  induction rl using Nat.strong_induction_on with
  | _ rl ih =>
    intro k out sent h
    have h0 := h 0 (by omega)
    rw [Nat.add_zero] at h0
    rcases rl with _ | rl1
    · rw [runStepBytes_unfold]
      simp [h0.1, h0.2, hne, replConcat, strAppend_empty]
    rcases rl1 with _ | r
    · rw [runStepBytes_unfold]
      simp [h0.1, h0.2, hne, replConcat, strAppend_empty]
    · have hrec := ih (r + 1) (by omega) (k + 1) (out ++ oracle k)
        (sent ++ [c.Command]) (by
          intro j hj
          have := h (j + 1) (by omega)
          simpa [Nat.add_assoc, Nat.add_comm 1 j] using this)
      rw [runStepBytes_unfold]
      simp only [h0.1, h0.2, hne, Bool.false_eq_true, if_false, ite_false]
      rw [hrec]
      have hmax : max 1 (r + 1) = r + 1 := by omega
      have hmax2 : max 1 (r + 2) = r + 2 := by omega
      rw [hmax, hmax2]
      refine congrArg₂ Prod.mk (by omega) (congrArg₂ Prod.mk ?_ (congrArg₂ Prod.mk ?_ ?_))
      · show out ++ oracle k ++ replConcat oracle (k + 1) (r + 1) = _
        rw [strAppend_assoc]
        rfl
      · simp [List.replicate_succ]
      · show StepOutcome.halt _ = StepOutcome.halt _
        have : k + 1 + (r + 1 - 1) = k + (r + 2 - 1) := by omega
        rw [this]

/-- The attempt loop of the `[]string` interpreter under never-matching,
never-aborting `ok` replies: with the Go retry counter at `rl`, the step is
attempted exactly `max 1 rl` times, each attempt consuming one reply and
resending the same command, and the step halts with the mismatch error
built from the step's command and the expected substring. -/
theorem runStepStrings_exhaust (aborts : List String) (c : CommandResponse)
    (oracle : Nat → Except String (List String)) (resps : Nat → List String)
    (hne : c.Response ≠ "") :
    ∀ (rl k : Nat) (out sent : List String),
      (∀ j < max 1 rl,
        oracle (k + j) = .ok (resps (k + j)) ∧
        containsAbortTermLines aborts (resps (k + j)) = false ∧
        (resps (k + j)).any (fun line => goContains line c.Response) = false) →
      runStepStrings aborts c oracle rl k out sent =
        (k + max 1 rl,
         out ++ replConcatLines resps k (max 1 rl),
         sent ++ List.replicate (max 1 rl) c.Command,
         .halt (mismatchMsgStrings c.Command c.Response)) := by
  intro rl
  induction rl using Nat.strong_induction_on with
  | _ rl ih =>
    intro k out sent h
    have h0 := h 0 (by omega)
    rw [Nat.add_zero] at h0
    obtain ⟨hok, habort, hmatch⟩ := h0
    rcases rl with _ | rl1
    · simp only [runStepStrings, hok]
      simp [habort, hmatch, hne, replConcatLines]
    rcases rl1 with _ | r
    · simp only [runStepStrings, hok]
      simp [habort, hmatch, hne, replConcatLines]
    · have hrec := ih (r + 1) (by omega) (k + 1) (out ++ resps k)
        (sent ++ [c.Command]) (by
          intro j hj
          have := h (j + 1) (by omega)
          simpa [Nat.add_assoc, Nat.add_comm 1 j] using this)
      simp only [runStepStrings, hok]
      simp only [habort, hmatch, hne, Bool.false_eq_true, if_false, ite_false]
      rw [hrec]
      have hmax : max 1 (r + 1) = r + 1 := by omega
      have hmax2 : max 1 (r + 2) = r + 2 := by omega
      rw [hmax, hmax2]
      refine congrArg₂ Prod.mk (by omega) (congrArg₂ Prod.mk ?_ (congrArg₂ Prod.mk ?_ rfl))
      · show out ++ resps k ++ replConcatLines resps (k + 1) (r + 1) = _
        rw [List.append_assoc]
        rfl
      · simp [List.replicate_succ]

/-- C6 as amended: when a step's replies never match its (non-empty)
expected substring and never abort, both interpreters resend the same
step's command, attempting it exactly `max 1 Retries` times in total (so a
step built with 0 retries fails immediately after its single attempt, with
zero retries), and then halt the script with a fatal "did not contain
expected" error: the `[]byte` variant's error (clause 1) names the actual
last reply and the expected substring but not the step, while the
`[]string` variant's error (clause 2) names the step's command and the
expected substring but not the reply. -/
theorem C6_retry_exhaustion :
    (∀ (aborts : List String) (oracle : Nat → String) (c : CommandResponse)
        (post : List CommandResponse) (k : Nat) (out : String) (sent : List String),
      c.Response ≠ "" →
      (∀ j < max 1 c.Retries.toNat,
        containsAbortTerm aborts (oracle (k + j)) = false ∧
        goContains (oracle (k + j)) c.Response = false) →
      runCmdsBytes aborts oracle (c :: post) k out sent =
        (out ++ replConcat oracle k (max 1 c.Retries.toNat),
         sent ++ List.replicate (max 1 c.Retries.toNat) c.Command,
         some (mismatchMsg (oracle (k + (max 1 c.Retries.toNat - 1))) c.Response))) ∧
    (∀ (aborts : List String) (oracle : Nat → Except String (List String))
        (resps : Nat → List String) (c : CommandResponse)
        (post : List CommandResponse) (k : Nat) (out sent : List String),
      c.Response ≠ "" →
      (∀ j < max 1 c.Retries.toNat,
        oracle (k + j) = .ok (resps (k + j)) ∧
        containsAbortTermLines aborts (resps (k + j)) = false ∧
        (resps (k + j)).any (fun line => goContains line c.Response) = false) →
      runCmdsStrings aborts oracle (c :: post) k out sent =
        (out ++ replConcatLines resps k (max 1 c.Retries.toNat),
         sent ++ List.replicate (max 1 c.Retries.toNat) c.Command,
         some (mismatchMsgStrings c.Command c.Response))) := by
  constructor
  · intro aborts oracle c post k out sent hne h
    rw [runCmdsBytes, runStepBytes_exhaust aborts c oracle hne c.Retries.toNat k out sent h]
  · intro aborts oracle resps c post k out sent hne h
    rw [runCmdsStrings,
      runStepStrings_exhaust aborts c oracle resps hne c.Retries.toNat k out sent h]

/-- Witness for C6: a step with `Retries = 3` (`[]byte` variant) or
`Retries = 2` (`[]string` variant) and a never-matching reply stream is
attempted exactly three (respectively two) times and then fails with the
respective mismatch error; the second step is never attempted. -/
theorem C6_witness :
    runCmdsBytes [] (fun _ => "GABA") [⟨"PING", "PONG", 1, 3⟩, ⟨"NEXT", "OK", 1, 0⟩]
        0 "" [] =
      ("GABAGABAGABA", ["PING", "PING", "PING"], some (mismatchMsg "GABA" "PONG")) ∧
    runCmdsStrings [] (fun _ => .ok ["GABA"]) (⟨"PING", "PONG", 1, 2⟩ ::
        [⟨"NEXT", "OK", 1, 0⟩]) 0 [] [] =
      (["GABA", "GABA"], ["PING", "PING"], some (mismatchMsgStrings "PING" "PONG")) := by
  constructor
  · have h := C6_retry_exhaustion.1 [] (fun _ => "GABA") ⟨"PING", "PONG", 1, 3⟩
      [⟨"NEXT", "OK", 1, 0⟩] 0 "" [] (by decide) (by decide)
    rw [h]
    decide
  · have h := C6_retry_exhaustion.2 [] (fun _ => .ok ["GABA"]) (fun _ => ["GABA"])
      ⟨"PING", "PONG", 1, 2⟩ [⟨"NEXT", "OK", 1, 0⟩] 0 [] [] (by decide)
      (by
        intro j hj
        exact ⟨rfl, show containsAbortTermLines [] ["GABA"] = false by decide,
          show (["GABA"].any fun line => goContains line "PONG") = false by decide⟩)
    rw [h]
    decide

/-! ## C4: a failed chunk aborts the write but returns n = 0 -/

/-- C4 at the failing input: payload `abcd` with negotiated chunk size 2;
the first chunk `ab` is flushed and acknowledged, the second chunk `cd` is
flushed but answered with `SEND FAIL`. The write is aborted with the error
`Sending failed` — it is not silently dropped — but the Go return value is
0, not the 4 bytes flushed before the failure (nor the 2 acknowledged): in
the multi-chunk path `n, _ := c.m.Write(...)` binds a new variable shadowing
the named return `n`, and `return n, errors.New("Sending failed")` returns
the never-assigned named `n`, while the running total `tot_n` that tracks
the flushed bytes is returned only on full success. -/
theorem C4_failed_chunk_returns_zero :
    tcpConnWrite "abcd" ["+CIPSEND: 2", "OK"] failSecondChunkOracle 10 =
      ⟨[2, 2], ["ab", "cd"], 4, 0, some "Sending failed", false⟩ := by
  decide

/-! ## C5: chunk counts of the write path -/

/-- Counterexample to C5 at `N = 0`: the empty payload takes the
single-chunk branch and still issues one `+CIPSEND=0` size-announcing
command, while `ceil(0 / C) = 0`. -/
theorem C5_counterexample :
    (tcpConnWrite "" ["+CIPSEND: 1460", "OK"] okWriteOracle 10).announces.length = 1 ∧
    ceilDiv 0 1460 = 0 := by
  constructor <;> decide

theorem ceilDiv_zero_left (c : Nat) : ceilDiv 0 c = 0 := by
  unfold ceilDiv
  rcases c with _ | c'
  · rfl
  · exact Nat.div_eq_of_lt (by omega)

theorem ceilDiv_step (n c : Nat) (hc : 1 ≤ c) (hn : 1 ≤ n) :
    ceilDiv n c = ceilDiv (n - c) c + 1 := by
  have key : ∀ m : Nat, 1 ≤ m → ceilDiv m c = (m - 1) / c + 1 := by
    intro m hm
    unfold ceilDiv
    rw [show m + c - 1 = (m - 1) + c by omega, Nat.add_div_right _ (by omega)]
  rw [key n hn]
  rcases Nat.lt_or_ge c n with hlt | hge
  · rw [key (n - c) (by omega)]
    rw [show n - 1 = (n - c - 1) + c by omega, Nat.add_div_right _ (by omega)]
  · have h0 : n - c = 0 := by omega
    rw [h0, ceilDiv_zero_left]
    have hlt2 : n - 1 < c := by omega
    rw [Nat.div_eq_of_lt hlt2]

theorem ceilDiv_le_one (n c : Nat) (hc : 1 ≤ c) (hn : n ≤ c) : ceilDiv n c ≤ 1 := by
  unfold ceilDiv
  have : n + c - 1 < 2 * c := by omega
  have := Nat.div_lt_iff_lt_mul (show 0 < c by omega) |>.mpr this
  omega

theorem ceilDiv_pos (n c : Nat) (hc : 1 ≤ c) (hn : 1 ≤ n) : 1 ≤ ceilDiv n c := by
  unfold ceilDiv
  rw [Nat.le_div_iff_mul_le (by omega)]
  omega

theorem strMk_data (s : String) : String.mk s.data = s := by
  cases s
  rfl

theorem strConcat_map_mk :
    ∀ ls : List (List Char), (ls.map String.mk).foldr (· ++ ·) "" = String.mk ls.flatten
  | [] => rfl
  | l :: ls => by
    simp only [List.map_cons, List.foldr_cons, List.flatten_cons, strConcat_map_mk ls]
    rfl

theorem chunksOfAux_fuel (c : Nat) (hc : 1 ≤ c) :
    ∀ (fuel : Nat) (l : List Char), l.length ≤ fuel →
      chunksOfAux c fuel l = chunksOfAux c l.length l := by
  intro fuel
  induction fuel using Nat.strong_induction_on with
  | _ fuel ih =>
    intro l hl
    rcases fuel with _ | f
    · have hnil : l = [] := List.length_eq_zero.mp (by omega)
      subst hnil
      rfl
    · rcases l with _ | ⟨x, xs⟩
      · rfl
      · show chunksOfAux c (f + 1) (x :: xs) = chunksOfAux c (xs.length + 1) (x :: xs)
        simp only [chunksOfAux]
        congr 1
        have hd : ((x :: xs).drop c).length ≤ xs.length := by
          simp [List.length_drop]
          omega
        rw [ih f (by omega) _ (by simp at hl ⊢; omega),
          ih xs.length (by simp at hl; omega) _ hd]

theorem chunksOfAux_mem_le (c : Nat) :
    ∀ (fuel : Nat) (l ch : List Char), ch ∈ chunksOfAux c fuel l → ch.length ≤ c := by
  intro fuel
  induction fuel with
  | zero => intro l ch h; simp [chunksOfAux] at h
  | succ f ih =>
    intro l ch h
    rcases l with _ | ⟨x, xs⟩
    · simp [chunksOfAux] at h
    · simp only [chunksOfAux] at h
      rcases List.mem_cons.mp h with h1 | h2
      · subst h1
        simp [List.length_take]
      · exact ih _ _ h2

theorem chunksOfAux_flatten (c : Nat) (hc : 1 ≤ c) :
    ∀ (fuel : Nat) (l : List Char), l.length ≤ fuel →
      (chunksOfAux c fuel l).flatten = l := by
  intro fuel
  induction fuel with
  | zero =>
    intro l h
    have hnil : l = [] := List.length_eq_zero.mp (by omega)
    subst hnil
    rfl
  | succ f ih =>
    intro l h
    rcases l with _ | ⟨x, xs⟩
    · rfl
    · simp only [chunksOfAux, List.flatten_cons]
      rw [ih ((x :: xs).drop c) (by simp [List.length_drop] at h ⊢; omega)]
      exact List.take_append_drop c (x :: xs)

/-- The multi-chunk loop under a fully cooperative device: every prompt is
granted, every chunk is fully written and acknowledged. The loop then exits
normally, having announced one `+CIPSEND=C` per chunk, written exactly the
consecutive `≤ C`-sized slices of the remaining payload, and totalled the
payload length. -/
theorem writeLoopGo_success (C : Nat) (hC : 1 ≤ C) :
    ∀ (fuel : Nat) (oracle : Nat → WriteEvent) (rem : List Char),
      (∀ k, (oracle k).ready = true) →
      (∀ k, checkSendOK (oracle k).ackLines 5 = true) →
      (∀ k chunk, (oracle k).write chunk = chunk.length) →
      rem.length < fuel →
      writeLoopGo C oracle fuel rem =
        ⟨List.replicate (ceilDiv rem.length C) (C : Int),
         (chunksOfAux C rem.length rem).map String.mk,
         rem.length, .ok⟩ := by
  intro fuel
  induction fuel with
  | zero => intro oracle rem h1 h2 h3 hlen; omega
  | succ f ih =>
    intro oracle rem h1 h2 h3 hlen
    rcases rem with _ | ⟨x, xs⟩
    · simp [writeLoopGo, ceilDiv_zero_left, chunksOfAux]
    · have hne : (x :: xs) ≠ ([] : List Char) := by simp
      rw [writeLoopGo, if_neg hne]
      simp only [h1 0, if_true]
      rw [h2 0, if_pos rfl, h3 0]
      have hdlen : ((x :: xs).drop C).length < f := by
        simp only [List.length_drop] at *
        simp only [List.length_cons] at hlen ⊢
        omega
      rw [ih (fun j => oracle (j + 1)) ((x :: xs).drop C)
        (fun k => h1 (k + 1)) (fun k => h2 (k + 1)) (fun k chunk => h3 (k + 1) chunk)
        hdlen]
      have hlen1 : 1 ≤ (x :: xs).length := by simp
      have hstep := ceilDiv_step (x :: xs).length C hC hlen1
      have hdrop : ((x :: xs).drop C).length = (x :: xs).length - C := by
        simp [List.length_drop]
      simp only [WriteTrace.mk.injEq]
      refine ⟨?_, ?_, ?_, by trivial⟩
      · rw [hdrop, hstep, List.replicate_succ]
      · have hcons : chunksOfAux C (x :: xs).length (x :: xs) =
            (x :: xs).take C :: chunksOfAux C xs.length ((x :: xs).drop C) := by
          show chunksOfAux C (xs.length + 1) (x :: xs) = _
          simp only [chunksOfAux]
        rw [hcons,
          chunksOfAux_fuel C hC xs.length ((x :: xs).drop C)
            (by simp [List.length_drop]; omega)]
        simp
      · show (String.mk ((x :: xs).take C)).length + ((x :: xs).drop C).length =
          (x :: xs).length
        show ((x :: xs).take C).length + ((x :: xs).drop C).length = (x :: xs).length
        simp only [List.length_take, List.length_drop, List.length_cons]
        omega

/-- C5 as amended: against a negotiated chunk size `C ≥ 1` parsed from the
`+CIPSEND?` reply, and a device that grants every prompt, fully writes and
acknowledges every chunk, a write of any payload `b` succeeds with return
value and flushed total `len(b)`, issues exactly `max 1 (ceil(len(b)/C))`
size-announcing `+CIPSEND` commands (the empty payload still issues one),
and hands the device exactly consecutive slices of `b`, each of length at
most `C`, whose concatenation is `b`. -/
theorem C5_chunk_counts (b : String) (cipsendResp : List String)
    (oracle : Nat → WriteEvent) (fuel C : Nat)
    (hparse : parseDataSize cipsendResp = (C : Int)) (hC : 1 ≤ C)
    (hfuel : b.length < fuel)
    (hready : ∀ k, (oracle k).ready = true)
    (hack : ∀ k, checkSendOK (oracle k).ackLines 5 = true)
    (hwrite : ∀ k chunk, (oracle k).write chunk = chunk.length) :
    (tcpConnWrite b cipsendResp oracle fuel).err = none ∧
    (tcpConnWrite b cipsendResp oracle fuel).divergent = false ∧
    (tcpConnWrite b cipsendResp oracle fuel).ret = b.length ∧
    (tcpConnWrite b cipsendResp oracle fuel).flushed = b.length ∧
    (tcpConnWrite b cipsendResp oracle fuel).announces.length =
      max 1 (ceilDiv b.length C) ∧
    (tcpConnWrite b cipsendResp oracle fuel).chunks.foldr (· ++ ·) "" = b ∧
    (∀ ch ∈ (tcpConnWrite b cipsendResp oracle fuel).chunks, ch.length ≤ C) := by
  have hres : tcpConnWrite b cipsendResp oracle fuel =
      (if (b.length : Int) > (C : Int) then
        ⟨List.replicate (ceilDiv b.length C) (C : Int),
         (chunksOfAux C b.length b.data).map String.mk,
         b.length, b.length, none, false⟩
      else
        ⟨[(b.length : Int)], [b], b.length, b.length, none, false⟩) := by
    unfold tcpConnWrite
    rw [hparse]
    by_cases hgt : (b.length : Int) > (C : Int)
    · rw [if_pos hgt, if_pos hgt]
      have hcast : ((C : Int)).toNat = C := by simp
      rw [hcast]
      rw [writeLoopGo_success C hC fuel oracle b.data hready hack hwrite hfuel]
      rfl
    · rw [if_neg hgt, if_neg hgt]
      simp only [hready 0, if_true]
      rw [hack 0, if_pos rfl, hwrite 0 b]
  rw [hres]
  by_cases hgt : (b.length : Int) > (C : Int)
  · rw [if_pos hgt]
    have hbc : C < b.length := by exact_mod_cast hgt
    refine ⟨rfl, rfl, rfl, rfl, ?_, ?_, ?_⟩
    · simp only [List.length_replicate]
      have := ceilDiv_pos b.length C hC (by omega)
      omega
    · show ((chunksOfAux C b.length b.data).map String.mk).foldr (· ++ ·) "" = b
      rw [strConcat_map_mk, chunksOfAux_flatten C hC b.length b.data (Nat.le_refl _)]
    · intro ch hch
      simp only [List.mem_map] at hch
      obtain ⟨l', hl', hmk⟩ := hch
      subst hmk
      exact chunksOfAux_mem_le C b.length b.data l' hl'
  · rw [if_neg hgt]
    have hbc : b.length ≤ C := by
      by_contra hcon
      exact hgt (by exact_mod_cast Nat.lt_of_not_le hcon)
    refine ⟨rfl, rfl, rfl, rfl, ?_, ?_, ?_⟩
    · show (1 : Nat) = max 1 (ceilDiv b.length C)
      have := ceilDiv_le_one b.length C hC hbc
      omega
    · show b ++ "" = b
      exact strAppend_empty b
    · intro ch hch
      simp only [List.mem_cons, List.not_mem_nil, or_false] at hch
      subst hch
      exact hbc

/-- Witness for C5: a five-byte payload against chunk size 2 on a fully
cooperative device issues three announcements, writes the slices
`ab`, `cd`, `e`, and returns 5. -/
theorem C5_witness :
    (tcpConnWrite "abcde" ["+CIPSEND: 2", "OK"] okWriteOracle 10).ret = 5 ∧
    (tcpConnWrite "abcde" ["+CIPSEND: 2", "OK"] okWriteOracle 10).announces.length =
      max 1 (ceilDiv 5 2) ∧
    (tcpConnWrite "abcde" ["+CIPSEND: 2", "OK"] okWriteOracle 10).chunks.foldr
      (· ++ ·) "" = "abcde" := by
  have h := C5_chunk_counts "abcde" ["+CIPSEND: 2", "OK"] okWriteOracle 10 2
    (by decide) (by decide) (by decide) (fun _ => rfl) (fun _ => rfl)
    (fun _ chunk => rfl)
  exact ⟨h.2.2.1, h.2.2.2.2.1, h.2.2.2.2.2.1⟩

end SIM7000
